import Mathlib

/-!
Verification of the VoiceAnalysis core analyzers.

This file is a shallow embedding, over exact arithmetic (`ℚ`, and `ℝ`
where the source takes a square root via `np.std`), of the two scoring
engines of the repository:

  * `analyzers/emotional_analyzer.py` (`EmotionalAnalyzer.analyze_emotions`)
  * `analyzers/health_analyzer.py` (`HealthAnalyzer.analyze_health`)

The numerical library calls (librosa / numpy feature extraction) are
external to the repository; they are abstracted as oracle functions
supplied as parameters, while every piece of decision logic written in
the repository itself is translated statement by statement.
-/

namespace VoiceAnalysis

/-- numpy `np.mean` over a list of rationals: sum divided by length.
On an empty list numpy yields NaN; `ℚ` division by zero yields `0`, and
every use below is guarded so the empty case is never consulted. -/
def npMean (xs : List ℚ) : ℚ := xs.sum / (xs.length : ℚ)

/-- numpy `np.diff`: successive differences `xs[i+1] - xs[i]`. -/
def npDiff (xs : List ℚ) : List ℚ := List.zipWith (fun a b => b - a) xs xs.tail

/-- Python builtin `max` over a list (first argument seeds the scan); the
source only applies it to nonempty lists, the `[]` case is junk. -/
def pyListMax : List ℚ → ℚ
  | [] => 0
  | x :: xs => xs.foldl max x

/-- The five emotion keys of the score dictionary, in the order the
source inserts them (`gioia`, `tristezza`, `rabbia`, `ansia`, `neutrale`
= joy, sadness, anger, anxiety, neutral). -/
inductive Emotion where
  | gioia
  | tristezza
  | rabbia
  | ansia
  | neutrale
deriving DecidableEq

/-- Position of an emotion in the fixed insertion/enumeration order. -/
def emIdx : Emotion → ℕ
  | .gioia => 0
  | .tristezza => 1
  | .rabbia => 2
  | .ansia => 3
  | .neutrale => 4

/-- The `emotion_scores` dictionary: one rational per fixed key. -/
structure EmotionScores where
  gioia : ℚ
  tristezza : ℚ
  rabbia : ℚ
  ansia : ℚ
  neutrale : ℚ
deriving DecidableEq

/-- Value lookup in the score dictionary. -/
def EmotionScores.get (s : EmotionScores) : Emotion → ℚ
  | .gioia => s.gioia
  | .tristezza => s.tristezza
  | .rabbia => s.rabbia
  | .ansia => s.ansia
  | .neutrale => s.neutrale

/-- `emotion_scores.items()`: the key/value pairs in insertion order. -/
def itemsList (s : EmotionScores) : List (Emotion × ℚ) :=
  [(.gioia, s.gioia), (.tristezza, s.tristezza), (.rabbia, s.rabbia),
   (.ansia, s.ansia), (.neutrale, s.neutrale)]

/-- `sum(emotion_scores.values())`. -/
def totalScores (s : EmotionScores) : ℚ :=
  s.gioia + s.tristezza + s.rabbia + s.ansia + s.neutrale

/-- Initial score dictionary: every emotion 0.0 except `neutrale = 0.2`
(emotional_analyzer.py lines 49–55). -/
def scoresInit : EmotionScores := ⟨0, 0, 0, 0, 0.2⟩

/-- The acoustic features consumed by the rule-based emotional scoring
(mean RMS energy, beat-track tempo, std of the confidence-filtered pitch
track). Their extraction is pure librosa and is abstracted away. -/
structure EmotionFeatures where
  energy : ℚ
  tempo : ℚ
  pitch_std : ℚ

/-- Rule 1 (lines 58–62): high energy assigns joy/anger, low energy
assigns sadness. -/
def applyRule1 (energy : ℚ) (s : EmotionScores) : EmotionScores :=
  if 0.1 < energy then { s with gioia := energy, rabbia := energy * 0.5 }
  else { s with tristezza := 0.1 - energy }

/-- Rule 2 (lines 64–66): positive pitch variability adds to joy and
anxiety. -/
def applyRule2 (pitch_std : ℚ) (s : EmotionScores) : EmotionScores :=
  if 0 < pitch_std then
    { s with gioia := s.gioia + min (pitch_std / 100) 0.3,
             ansia := s.ansia + min (pitch_std / 200) 0.2 }
  else s

/-- Rule 3 (lines 68–72): fast tempo adds to anxiety and anger, slow
tempo adds to sadness. -/
def applyRule3 (tempo : ℚ) (s : EmotionScores) : EmotionScores :=
  if 120 < tempo then
    { s with ansia := s.ansia + min ((tempo - 120) / 100) 0.3,
             rabbia := s.rabbia + min ((tempo - 120) / 150) 0.2 }
  else { s with tristezza := s.tristezza + min ((120 - tempo) / 100) 0.3 }

/-- The raw emotion scores after the three additive rules. -/
def rawScores (f : EmotionFeatures) : EmotionScores :=
  applyRule3 f.tempo (applyRule2 f.pitch_std (applyRule1 f.energy scoresInit))

/-- The division branch of the normalization: every value divided by the
total (line 77). -/
def divScores (s : EmotionScores) : EmotionScores :=
  ⟨s.gioia / totalScores s, s.tristezza / totalScores s, s.rabbia / totalScores s,
   s.ansia / totalScores s, s.neutrale / totalScores s⟩

/-- Normalization (lines 74–79): divide by the total when it is
positive, otherwise fall back to a uniform 0.2 per emotion. -/
def normalizeScores (s : EmotionScores) : EmotionScores :=
  if 0 < totalScores s then divScores s else ⟨0.2, 0.2, 0.2, 0.2, 0.2⟩

/-- Python `max(items, key=value)`: left fold keeping the earlier item
unless a strictly larger value appears. -/
def pyMaxFrom (b : Emotion × ℚ) : List (Emotion × ℚ) → Emotion × ℚ
  | [] => b
  | p :: ps => pyMaxFrom (if b.2 < p.2 then p else b) ps

/-- `_get_speech_rate` (lines 108–114). -/
def getSpeechRate (tempo : ℚ) : String :=
  if 170 < tempo then "fast" else if tempo < 130 then "slow" else "normal"

/-- `_get_pitch_variability` (lines 116–122). -/
def getPitchVariability (std : ℚ) : String :=
  if 50 < std then "high" else if 20 < std then "moderate" else "monotone"

/-- `_get_energy_level` (lines 124–130). -/
def getEnergyLevel (energy : ℚ) : String :=
  if 0.1 < energy then "high" else if 0.05 < energy then "medium" else "low"

/-- The result record built by `analyze_emotions`; the probability
mapping keeps the dictionary's key/value pairs in insertion order. -/
structure EmotionResult where
  dominant_emotion : Emotion
  emotion_probabilities : List (Emotion × ℚ)
  speech_rate : String
  pitch_variability : String
  voice_energy : String
  speech_pauses : String
  rhythm_stability : String
  speech_rate_value : ℚ
  pitch_variability_value : ℚ
  voice_energy_value : ℚ
  speech_pauses_value : ℚ
  rhythm_stability_value : ℚ
deriving DecidableEq

/-- `_get_default_results` (lines 132–153). -/
def defaultResults : EmotionResult where
  dominant_emotion := .neutrale
  emotion_probabilities :=
    [(.gioia, 0.2), (.tristezza, 0.2), (.rabbia, 0.2), (.ansia, 0.2), (.neutrale, 0.2)]
  speech_rate := "normal"
  pitch_variability := "moderate"
  voice_energy := "medium"
  speech_pauses := "normal"
  rhythm_stability := "stable"
  speech_rate_value := 0.5
  pitch_variability_value := 0.5
  voice_energy_value := 0.5
  speech_pauses_value := 0.5
  rhythm_stability_value := 0.5

/-- The non-default path of `analyze_emotions` (lines 49–100): rules,
normalization, dominant emotion by Python `max` over the items, buckets
and derived scalar values. -/
def scoreEmotion (f : EmotionFeatures) : EmotionResult :=
  let ns := normalizeScores (rawScores f)
  { dominant_emotion :=
      (pyMaxFrom (.gioia, ns.gioia)
        [(.tristezza, ns.tristezza), (.rabbia, ns.rabbia),
         (.ansia, ns.ansia), (.neutrale, ns.neutrale)]).1
    emotion_probabilities := itemsList ns
    speech_rate := getSpeechRate f.tempo
    pitch_variability := getPitchVariability f.pitch_std
    voice_energy := getEnergyLevel f.energy
    speech_pauses := "normal"
    rhythm_stability := "stable"
    speech_rate_value := min (f.tempo / 200) 1
    pitch_variability_value :=
      if 0 < f.pitch_std then min (f.pitch_std / 100) 1 else 0.5
    voice_energy_value := min (f.energy * 10) 1
    speech_pauses_value := 0.5
    rhythm_stability_value := 0.5 }

/-- Sample buffers handed to `analyze_emotions`: either a 1-D mono
buffer or a 2-D multi-channel buffer (one inner list per frame). -/
inductive AudioInput where
  | mono (samples : List ℚ)
  | multi (frames : List (List ℚ))

/-- Lines 19–22: a 2-D buffer is down-mixed by `np.mean(·, axis=1)`
(per-frame channel average); a 1-D buffer is passed through. -/
def downmix : AudioInput → List ℚ
  | .mono samples => samples
  | .multi frames => frames.map npMean

/-- Body of the `try` block (lines 25–102): the short-clip pre-check
(`len(audio_data) < sr * 0.5`) returns the defaults, otherwise the
feature extraction (a fallible librosa oracle `ex`) feeds the scoring. -/
def analyzeEmotionsCore (ex : List ℚ → Except Unit EmotionFeatures)
    (audio : List ℚ) (sr : ℕ) : Except Unit EmotionResult :=
  if (audio.length : ℚ) < (sr : ℚ) * 0.5 then pure defaultResults
  else (ex audio).map scoreEmotion

/-- `analyze_emotions` (lines 16–106): down-mix, then the `try` body;
the blanket `except` (lines 104–106) converts any failure to the
default result. -/
def analyze_emotions (ex : List ℚ → Except Unit EmotionFeatures)
    (input : AudioInput) (sr : ℕ) : EmotionResult :=
  match analyzeEmotionsCore ex (downmix input) sr with
  | .ok r => r
  | .error _ => defaultResults

/-- numpy population variance (`np.std` squared): mean squared deviation
from the mean. -/
def npVar (xs : List ℚ) : ℚ := npMean (xs.map (fun x => (x - npMean xs) ^ 2))

/-- numpy `np.std`: square root of the population variance. The square
root is genuinely irrational in general, so this lives in `ℝ`. -/
noncomputable def npStdR (xs : List ℚ) : ℝ := Real.sqrt ((npVar xs : ℚ) : ℝ)

/-- The inter-event intervals of `_analyze_breathing` (health_analyzer.py
line 61): `np.diff(breath_events) / sr`, event indices divided by the
sample rate. -/
def breathIntervals (breath_events : List ℕ) (sr : ℕ) : List ℚ :=
  (npDiff (breath_events.map (fun e => (e : ℚ)))).map (fun d => d / (sr : ℚ))

/-- Breathing sub-report of `_analyze_breathing` (lines 45–69). -/
structure BreathingResult where
  rate : ℚ
  regularity : ℝ

/-- `_analyze_breathing` (lines 45–69), downstream of the librosa onset
detection: breaths per minute from the event count, regularity
`1 - std(intervals)/mean(intervals)` when more than one event exists and
the mean interval is positive, else 0. -/
noncomputable def analyzeBreathing (breath_events : List ℕ)
    (audioLen sr : ℕ) : BreathingResult :=
  let duration : ℚ := (audioLen : ℚ) / (sr : ℚ)
  { rate := if 0 < duration then (breath_events.length : ℚ) * 60 / duration else 0
    regularity :=
      if 1 < breath_events.length then
        let intervals := breathIntervals breath_events sr
        if 0 < npMean intervals then
          1 - npStdR intervals / ((npMean intervals : ℚ) : ℝ)
        else 0
      else 0 }

/-- Voice-quality sub-report of `_analyze_voice_quality` (lines 71–109). -/
structure VoiceQualityResult where
  quality_score : ℝ
  hoarseness : ℚ
  strain : ℝ

/-- Line 75: `pitches[magnitudes > np.max(magnitudes) * 0.1]` guarded by
`magnitudes.size > 0`, over the flattened (pitch, magnitude) pairs the
librosa piptrack oracle returns. -/
def validPitches (piptrackPairs : List (ℚ × ℚ)) : List ℚ :=
  if piptrackPairs = [] then []
  else
    let m := pyListMax (piptrackPairs.map Prod.snd)
    (piptrackPairs.filter (fun p => m * 0.1 < p.2)).map Prod.fst

/-- `_analyze_voice_quality` (lines 71–109), downstream of librosa:
jitter from the valid pitch track, shimmer from the RMS envelope, HNR
from the band means, `strain = (jitter + shimmer) / 2`,
`quality_score = 1 - mean([jitter, shimmer, strain])`,
`hoarseness = 1 - hnr` when `hnr < 1` else 0. -/
noncomputable def analyzeVoiceQuality (piptrackPairs : List (ℚ × ℚ))
    (rms harmonic_energy noise_energy : List ℚ) : VoiceQualityResult :=
  let pitches_valid := validPitches piptrackPairs
  let jitter : ℝ :=
    if 1 < pitches_valid.length then
      if 0 < npMean pitches_valid then
        npStdR (npDiff pitches_valid) / ((npMean pitches_valid : ℚ) : ℝ)
      else 0
    else 0
  let shimmer : ℝ :=
    if 0 < npMean rms then npStdR rms / ((npMean rms : ℚ) : ℝ) else 0
  let hnr : ℚ :=
    if 0 < npMean noise_energy then npMean harmonic_energy / npMean noise_energy
    else 0
  let strain : ℝ := (jitter + shimmer) / 2
  { quality_score := 1 - (jitter + shimmer + strain) / 3
    hoarseness := if hnr < 1 then 1 - hnr else 0
    strain := strain }

/-- Fatigue sub-report of `_analyze_fatigue` (lines 111–143). -/
structure FatigueResult where
  fatigue_score : ℚ
  timeline : List ℚ
deriving DecidableEq

/-- The consecutive slices `audio[i : i + n]` for `i = 0, n, 2n, ...`
(the comprehension on lines 116–118 before its length filter). A zero
slice width would raise in Python; it is mapped to no segments here and
every claim below assumes a positive sample rate. -/
def chunkSegments (n : ℕ) : List ℚ → List (List ℚ)
  | [] => []
  | x :: xs =>
    if _h : n = 0 then []
    else (x :: xs).take n :: chunkSegments n ((x :: xs).drop n)
termination_by xs => xs.length
decreasing_by
  simp only [List.length_drop, List.length_cons]
  omega

/-- Lines 114–118: 3-second segments, keeping only those of at least
`sr` samples (one second). -/
def eligibleSegments (audio : List ℚ) (sr : ℕ) : List (List ℚ) :=
  (chunkSegments (sr * 3) audio).filter (fun s => sr ≤ s.length)

/-- Lines 126–130: `energy_trend`, the mean RMS per eligible segment
(the per-segment `librosa.feature.rms` call is the oracle `rmsOf`). -/
def energyTrend (rmsOf : List ℚ → List ℚ) (audio : List ℚ) (sr : ℕ) :
    List ℚ :=
  (eligibleSegments audio sr).map (fun s => npMean (rmsOf s))

/-- Lines 132–135: the trend normalized by its maximum (each entry 0
when the maximum is not positive), left untouched when empty. -/
def normalizedTrend (rmsOf : List ℚ → List ℚ) (audio : List ℚ) (sr : ℕ) :
    List ℚ :=
  if energyTrend rmsOf audio sr = [] then energyTrend rmsOf audio sr
  else
    (energyTrend rmsOf audio sr).map
      (fun e =>
        if 0 < pyListMax (energyTrend rmsOf audio sr) then
          e / pyListMax (energyTrend rmsOf audio sr)
        else 0)

/-- `_analyze_fatigue` (lines 111–143): mean RMS per eligible segment,
normalized by the maximum, fatigue score
`1 - timeline[-1] / timeline[0]` when the trend is nonempty with a
positive first value; fixed `[0.0]` default when no segment is
eligible. -/
def analyzeFatigue (rmsOf : List ℚ → List ℚ) (audio : List ℚ) (sr : ℕ) :
    FatigueResult :=
  if eligibleSegments audio sr = [] then { fatigue_score := 0, timeline := [0] }
  else
    { fatigue_score :=
        if normalizedTrend rmsOf audio sr ≠ [] ∧
            0 < (normalizedTrend rmsOf audio sr).headD 0 then
          1 - (normalizedTrend rmsOf audio sr).getLastD 0 /
            (normalizedTrend rmsOf audio sr).headD 0
        else 0
      timeline := normalizedTrend rmsOf audio sr }

/-- Speech-rhythm sub-report of `_analyze_speech_rhythm` (lines 145–167). -/
structure RhythmResult where
  fluency : ℝ
  stability : ℝ

/-- `_analyze_speech_rhythm` (lines 145–167), downstream of the librosa
beat tracker: regularity of the beat intervals (in frames, no division
by `sr` here), fluency equal to that regularity, stability mixing in the
tempo-closeness term. -/
noncomputable def analyzeSpeechRhythm (tempo : ℚ) (beats : List ℕ) :
    RhythmResult :=
  let rhythm_regularity : ℝ :=
    if 1 < beats.length then
      let beat_intervals := npDiff (beats.map (fun b => (b : ℚ)))
      if 0 < npMean beat_intervals then
        1 - npStdR beat_intervals / ((npMean beat_intervals : ℚ) : ℝ)
      else 0
    else 0
  { fluency := rhythm_regularity
    stability := (rhythm_regularity + (1 - |(tempo : ℝ) - 120| / 120)) / 2 }

/-- `librosa.util.normalize` (health_analyzer.py line 38), modelled from
the library: rescale so the peak magnitude is 1; inputs whose peak is
below the tiny threshold are returned unchanged; on an empty buffer the
underlying `np.max` reduction raises, modelled as `Except.error`. -/
def npNormalize (xs : List ℚ) : Except Unit (List ℚ) :=
  if xs = [] then .error ()
  else if 0 < pyListMax (xs.map (fun x => |x|)) then
    .ok (xs.map (fun x => x / pyListMax (xs.map (fun y => |y|))))
  else .ok xs

/-- The librosa feature extractions called by `analyze_health`, as total
oracles (the spec's failure policy for the extractor: degrade to neutral
values rather than raise). -/
structure HealthOracle where
  trim : List ℚ → List ℚ
  onsets : List ℚ → List ℕ
  piptrack : List ℚ → List (ℚ × ℚ)
  rms : List ℚ → List ℚ
  bands : List ℚ → List ℚ × List ℚ
  beatTrack : List ℚ → ℚ × List ℕ

/-- The full health result record (lines 28–33). -/
structure HealthResult where
  breathing : BreathingResult
  voice_quality : VoiceQualityResult
  fatigue : FatigueResult
  speech_rhythm : RhythmResult

/-- `analyze_health` (lines 11–33): preprocessing (normalize + trim,
lines 35–43) followed by the four sub-analyses. The method body has no
`try`/`except`, so a failure inside it (here: the `np.max` reduction of
`librosa.util.normalize` on an empty buffer) propagates to the caller. -/
noncomputable def analyze_health (o : HealthOracle) (audio : List ℚ)
    (sr : ℕ) : Except Unit HealthResult := do
  let normalized ← npNormalize audio
  let a := o.trim normalized
  let (tempo, beats) := o.beatTrack a
  let (harmonic_energy, noise_energy) := o.bands a
  pure
    { breathing := analyzeBreathing (o.onsets a) a.length sr
      voice_quality := analyzeVoiceQuality (o.piptrack a) (o.rms a)
        harmonic_energy noise_energy
      fatigue := analyzeFatigue o.rms a sr
      speech_rhythm := analyzeSpeechRhythm tempo beats }

/-- Constructor-level success test for the health pipeline's result. -/
def isOkE {α : Type} : Except Unit α → Bool
  | .ok _ => true
  | .error _ => false

/-! ## Theorems -/

/-- C2: any clip whose (down-mixed) sample count is below half the
sample rate skips extraction and yields the fixed default result:
dominant emotion `neutrale`, all five probabilities 0.2, buckets
normal / moderate / medium / normal / stable, all five scalar values
0.5. -/
theorem C2_short_clip_default_result
    (ex : List ℚ → Except Unit EmotionFeatures) (input : AudioInput) (sr : ℕ)
    (hshort : ((downmix input).length : ℚ) < (sr : ℚ) * 0.5) :
    analyze_emotions ex input sr = defaultResults ∧
    (analyze_emotions ex input sr).dominant_emotion = .neutrale ∧
    (analyze_emotions ex input sr).emotion_probabilities =
      [(.gioia, 0.2), (.tristezza, 0.2), (.rabbia, 0.2), (.ansia, 0.2),
       (.neutrale, 0.2)] ∧
    (analyze_emotions ex input sr).speech_rate = "normal" ∧
    (analyze_emotions ex input sr).pitch_variability = "moderate" ∧
    (analyze_emotions ex input sr).voice_energy = "medium" ∧
    (analyze_emotions ex input sr).speech_pauses = "normal" ∧
    (analyze_emotions ex input sr).rhythm_stability = "stable" ∧
    (analyze_emotions ex input sr).speech_rate_value = 0.5 ∧
    (analyze_emotions ex input sr).pitch_variability_value = 0.5 ∧
    (analyze_emotions ex input sr).voice_energy_value = 0.5 ∧
    (analyze_emotions ex input sr).speech_pauses_value = 0.5 ∧
    (analyze_emotions ex input sr).rhythm_stability_value = 0.5 := by
  have hcore : analyze_emotions ex input sr = defaultResults := by
    unfold analyze_emotions analyzeEmotionsCore
    rw [if_pos hshort]
    rfl
  refine ⟨hcore, ?_⟩
  rw [hcore]
  exact ⟨rfl, rfl, rfl, rfl, rfl, rfl, rfl, rfl, rfl, rfl, rfl, rfl⟩

/-- Witness for C2 at a concrete short clip: 4000 samples at 16 kHz. -/
theorem C2_short_clip_witness :
    analyze_emotions (fun _ => .error ()) (.mono (List.replicate 4000 0)) 16000
      = defaultResults :=
  (C2_short_clip_default_result (fun _ => .error ())
    (.mono (List.replicate 4000 0)) 16000 (by norm_num [downmix])).1

/-- C10: a 2-D multi-channel buffer is down-mixed by averaging across
channels, and the analysis result is the one of the corresponding mono
average signal. -/
theorem C10_multichannel_downmix
    (ex : List ℚ → Except Unit EmotionFeatures) (frames : List (List ℚ))
    (sr : ℕ) :
    analyze_emotions ex (.multi frames) sr
      = analyze_emotions ex (.mono (frames.map npMean)) sr := rfl

/-- C9: in `_analyze_voice_quality`, strain is the mean of jitter and
shimmer, so `quality_score = 1 - mean([jitter, shimmer, strain])`
collapses to `1 - strain`: quality score and strain sum to exactly 1
for every input. -/
theorem C9_quality_strain_sum_one (piptrackPairs : List (ℚ × ℚ))
    (rms harmonic_energy noise_energy : List ℚ) :
    (analyzeVoiceQuality piptrackPairs rms harmonic_energy
        noise_energy).quality_score +
      (analyzeVoiceQuality piptrackPairs rms harmonic_energy
        noise_energy).strain = 1 := by
  unfold analyzeVoiceQuality
  ring

/-- Helper: each field of the raw score map is nonnegative and the
neutral score stays at its 0.2 seed. -/
lemma rawScores_fields (f : EmotionFeatures) :
    0 ≤ (rawScores f).gioia ∧ 0 ≤ (rawScores f).tristezza ∧
    0 ≤ (rawScores f).rabbia ∧ 0 ≤ (rawScores f).ansia ∧
    (rawScores f).neutrale = 0.2 := by
  unfold rawScores applyRule1 applyRule2 applyRule3 scoresInit
  split_ifs with h1 h2 h3 <;>
    refine ⟨?_, ?_, ?_, ?_, rfl⟩ <;>
    (repeat' apply add_nonneg) <;>
    first
      | exact le_min (div_nonneg (by linarith) (by norm_num)) (by norm_num)
      | linarith

/-- Helper: the raw score total is at least the 0.2 neutral seed. -/
lemma totalScores_rawScores (f : EmotionFeatures) :
    0.2 ≤ totalScores (rawScores f) := by
  obtain ⟨hg, ht, hr, ha, hn⟩ := rawScores_fields f
  unfold totalScores
  rw [hn]
  linarith

/-- C8: every rule contribution is nonnegative and the neutral score is
seeded at 0.2, so the raw totals are at least 0.2 and strictly positive,
and the uniform fallback branch of the normalization is never taken on
the non-default path. -/
theorem C8_raw_scores_total_positive (f : EmotionFeatures) :
    (0 ≤ (rawScores f).gioia ∧ 0 ≤ (rawScores f).tristezza ∧
      0 ≤ (rawScores f).rabbia ∧ 0 ≤ (rawScores f).ansia ∧
      (rawScores f).neutrale = 0.2) ∧
    0.2 ≤ totalScores (rawScores f) ∧
    0 < totalScores (rawScores f) ∧
    normalizeScores (rawScores f) = divScores (rawScores f) := by
  have htot := totalScores_rawScores f
  refine ⟨rawScores_fields f, htot, by linarith, ?_⟩
  unfold normalizeScores
  rw [if_pos (by linarith)]

/-- Helper: after the positive-total normalization the five values sum
to exactly 1. -/
lemma normalize_sum_one (s : EmotionScores) (h : 0 < totalScores s) :
    ((itemsList (normalizeScores s)).map Prod.snd).sum = 1 := by
  have hne : totalScores s ≠ 0 := ne_of_gt h
  unfold normalizeScores
  rw [if_pos h]
  unfold divScores itemsList
  simp only [List.map_cons, List.map_nil, List.sum_cons, List.sum_nil, add_zero]
  field_simp
  unfold totalScores
  ring

/-- Helper: `analyze_emotions` returns either the default result (short
clip or caught failure) or the scored result of some feature triple. -/
lemma analyze_emotions_shape (ex : List ℚ → Except Unit EmotionFeatures)
    (input : AudioInput) (sr : ℕ) :
    analyze_emotions ex input sr = defaultResults ∨
    ∃ f, analyze_emotions ex input sr = scoreEmotion f := by
  unfold analyze_emotions analyzeEmotionsCore
  split_ifs with h
  · exact Or.inl rfl
  · rcases hx : ex (downmix input) with e | f
    · exact Or.inl (by simp [hx, Except.map])
    · exact Or.inr ⟨f, by simp [hx, Except.map]⟩

/-- C1: on every path (normal, short clip, caught failure) the returned
probability mapping has exactly the five fixed keys in order and its
values sum to exactly 1; for the normalization step itself, a positive
raw total is divided through to sum 1 and a nonpositive raw total falls
back to exactly 0.2 per emotion. -/
theorem C1_emotion_probabilities_keys_and_normalization :
    (∀ (ex : List ℚ → Except Unit EmotionFeatures) (input : AudioInput) (sr : ℕ),
      (analyze_emotions ex input sr).emotion_probabilities.map Prod.fst =
        [Emotion.gioia, .tristezza, .rabbia, .ansia, .neutrale] ∧
      ((analyze_emotions ex input sr).emotion_probabilities.map Prod.snd).sum = 1) ∧
    (∀ s : EmotionScores, 0 < totalScores s →
      ((itemsList (normalizeScores s)).map Prod.snd).sum = 1) ∧
    (∀ s : EmotionScores, totalScores s ≤ 0 →
      (itemsList (normalizeScores s)).map Prod.snd = [0.2, 0.2, 0.2, 0.2, 0.2]) := by
  refine ⟨?_, fun s h => normalize_sum_one s h, ?_⟩
  · intro ex input sr
    rcases analyze_emotions_shape ex input sr with h | ⟨f, h⟩
    · rw [h]
      exact ⟨rfl, by norm_num [defaultResults, itemsList]⟩
    · rw [h]
      have htot : 0 < totalScores (rawScores f) :=
        lt_of_lt_of_le (by norm_num) (totalScores_rawScores f)
      exact ⟨rfl, normalize_sum_one _ htot⟩
  · intro s h
    unfold normalizeScores
    rw [if_neg (not_lt.mpr h)]
    rfl

/-- Witness for C1: a positive-total score map, an all-zero score map,
and a concrete failing extraction. -/
theorem C1_probabilities_witness :
    ((itemsList (normalizeScores ⟨1, 0, 0, 0, 0⟩)).map Prod.snd).sum = 1 ∧
    (itemsList (normalizeScores ⟨0, 0, 0, 0, 0⟩)).map Prod.snd =
      [0.2, 0.2, 0.2, 0.2, 0.2] ∧
    ((analyze_emotions (fun _ => .error ()) (.mono [1]) 1).emotion_probabilities.map
        Prod.snd).sum = 1 :=
  ⟨C1_emotion_probabilities_keys_and_normalization.2.1 ⟨1, 0, 0, 0, 0⟩
      (by norm_num [totalScores]),
   C1_emotion_probabilities_keys_and_normalization.2.2 ⟨0, 0, 0, 0, 0⟩
      (by norm_num [totalScores]),
   (C1_emotion_probabilities_keys_and_normalization.1 (fun _ => .error ())
      (.mono [1]) 1).2⟩

/-- Helper: over the five items in insertion order, the Python `max`
fold picks an item of maximal value, and among equal values the one
earliest in the enumeration order. -/
lemma pyMaxFrom_five (a b c d e : ℚ) :
    (∀ em, EmotionScores.get ⟨a, b, c, d, e⟩ em ≤
      EmotionScores.get ⟨a, b, c, d, e⟩
        ((pyMaxFrom (Emotion.gioia, a)
          [(.tristezza, b), (.rabbia, c), (.ansia, d), (.neutrale, e)]).1)) ∧
    (∀ em, EmotionScores.get ⟨a, b, c, d, e⟩ em =
        EmotionScores.get ⟨a, b, c, d, e⟩
          ((pyMaxFrom (Emotion.gioia, a)
            [(.tristezza, b), (.rabbia, c), (.ansia, d), (.neutrale, e)]).1) →
      emIdx ((pyMaxFrom (Emotion.gioia, a)
          [(.tristezza, b), (.rabbia, c), (.ansia, d), (.neutrale, e)]).1) ≤
        emIdx em) := by
  simp only [pyMaxFrom]
  split_ifs <;>
    refine ⟨fun em => ?_, fun em h => ?_⟩ <;> cases em <;>
    simp_all [EmotionScores.get, emIdx] <;> first | omega | linarith

/-- C7: on the non-default path the dominant emotion attains the maximum
of the normalized probability map, and among emotions tied at that
maximum it is the first one in the fixed enumeration order
(gioia, tristezza, rabbia, ansia, neutrale). -/
theorem C7_dominant_emotion_argmax (f : EmotionFeatures) :
    (∀ em, (normalizeScores (rawScores f)).get em ≤
      (normalizeScores (rawScores f)).get ((scoreEmotion f).dominant_emotion)) ∧
    (∀ em, (normalizeScores (rawScores f)).get em =
        (normalizeScores (rawScores f)).get ((scoreEmotion f).dominant_emotion) →
      emIdx ((scoreEmotion f).dominant_emotion) ≤ emIdx em) :=
  pyMaxFrom_five (normalizeScores (rawScores f)).gioia
    (normalizeScores (rawScores f)).tristezza
    (normalizeScores (rawScores f)).rabbia
    (normalizeScores (rawScores f)).ansia
    (normalizeScores (rawScores f)).neutrale

/-- Witness for C7 at the silent-clip features (energy 0, tempo 120,
no pitch variability): the dominant emotion is `neutrale` and the tie
clause instantiated at the dominant itself discharges trivially. -/
theorem C7_argmax_witness :
    (normalizeScores (rawScores ⟨0, 120, 0⟩)).get .gioia ≤
      (normalizeScores (rawScores ⟨0, 120, 0⟩)).get
        ((scoreEmotion ⟨0, 120, 0⟩).dominant_emotion) ∧
    emIdx ((scoreEmotion ⟨0, 120, 0⟩).dominant_emotion) ≤
      emIdx ((scoreEmotion ⟨0, 120, 0⟩).dominant_emotion) :=
  ⟨(C7_dominant_emotion_argmax ⟨0, 120, 0⟩).1 .gioia,
   (C7_dominant_emotion_argmax ⟨0, 120, 0⟩).2
     ((scoreEmotion ⟨0, 120, 0⟩).dominant_emotion) rfl⟩

/-- A concrete oracle assignment for the health pipeline (used to
instantiate the error-propagation statements). -/
def oracle0 : HealthOracle where
  trim := id
  onsets := fun _ => []
  piptrack := fun _ => []
  rms := fun _ => []
  bands := fun _ => ([], [])
  beatTrack := fun _ => (0, [])

/-- Counterexample to C3: `analyze_health` has no top-level exception
boundary, so on an empty sample buffer — where the preprocessing
normalization's `np.max` reduction raises — the error reaches the
caller instead of a fully-populated result record. -/
theorem C3_health_error_propagates_counterexample :
    analyze_health oracle0 [] 16000 = .error () := rfl

/-- C3 (amended): the emotional engine converts any extraction failure
to the default result and never propagates it; the health engine has no
such boundary — a preprocessing failure propagates — while it does
return a full record on every nonempty buffer when the extractors
degrade gracefully. -/
theorem C3_error_boundary_amended :
    (∀ (ex : List ℚ → Except Unit EmotionFeatures) (input : AudioInput) (sr : ℕ),
      ex (downmix input) = .error () →
        analyze_emotions ex input sr = defaultResults) ∧
    (∀ (o : HealthOracle) (audio : List ℚ) (sr : ℕ),
      npNormalize audio = .error () → analyze_health o audio sr = .error ()) ∧
    (∀ (o : HealthOracle) (audio : List ℚ) (sr : ℕ),
      audio ≠ [] → isOkE (analyze_health o audio sr) = true) := by
  refine ⟨?_, ?_, ?_⟩
  · intro ex input sr hx
    unfold analyze_emotions analyzeEmotionsCore
    split_ifs
    · rfl
    · simp [hx, Except.map]
  · intro o audio sr hx
    unfold analyze_health
    rw [hx]
    rfl
  · intro o audio sr h
    unfold analyze_health npNormalize
    rw [if_neg h]
    split_ifs <;> rfl

/-- Witness for C3 (amended) at concrete inputs: a failing extractor for
the emotional engine, the empty buffer for the health engine's failure,
and a one-sample buffer for its success. -/
theorem C3_error_boundary_witness :
    analyze_emotions (fun _ => .error ()) (.mono [1, 1]) 1 = defaultResults ∧
    analyze_health oracle0 [] 3 = .error () ∧
    isOkE (analyze_health oracle0 [1] 3) = true :=
  ⟨C3_error_boundary_amended.1 (fun _ => .error ()) (.mono [1, 1]) 1 rfl,
   C3_error_boundary_amended.2.1 oracle0 [] 3 rfl,
   C3_error_boundary_amended.2.2 oracle0 [1] 3 (by simp)⟩

/-- Spacing contract of the librosa onset picker: with parameter `wait`,
consecutive picked events are strictly more than `wait` index units
apart. `_analyze_breathing` passes `wait = sr // 2` (line 52). -/
def detectorSpaced (wait : ℕ) (events : List ℕ) : Prop :=
  List.Chain' (fun a b => a + wait < b) events

/-- C5: under the detector's spacing contract with `wait = sr // 2`,
any two consecutive breathing events are at least half a second apart
in the time scale the engine itself uses (event index difference
divided by the sample rate). -/
theorem C5_breathing_event_spacing (events : List ℕ) (sr : ℕ)
    (hsr : 0 < sr) (hspaced : detectorSpaced (sr / 2) events) :
    ∀ d ∈ breathIntervals events sr, (1 : ℚ) / 2 ≤ d := by
  have hsrQ : (0 : ℚ) < (sr : ℚ) := by exact_mod_cast hsr
  induction events with
  | nil => intro d hd; simp [breathIntervals, npDiff] at hd
  | cons a rest ih =>
    cases rest with
    | nil => intro d hd; simp [breathIntervals, npDiff] at hd
    | cons b rest2 =>
      rw [detectorSpaced, List.chain'_cons] at hspaced
      obtain ⟨h1, h2⟩ := hspaced
      intro d hd
      have hd' : d = ((b : ℚ) - (a : ℚ)) / (sr : ℚ) ∨
          d ∈ breathIntervals (b :: rest2) sr := by
        simpa [breathIntervals, npDiff] using hd
      rcases hd' with rfl | hmem
      · have hab : a < b := by omega
        have hn : sr < 2 * (b - a) := by omega
        have hq : (sr : ℚ) < 2 * ((b : ℚ) - (a : ℚ)) := by
          calc (sr : ℚ) < ((2 * (b - a) : ℕ) : ℚ) := by exact_mod_cast hn
            _ = 2 * ((b : ℚ) - (a : ℚ)) := by
                push_cast [Nat.cast_sub hab.le]; ring
        rw [le_div_iff₀ hsrQ]
        linarith
      · exact ih h2 d hmem

/-- Witness for C5 at concrete spaced events. -/
theorem C5_spacing_witness :
    (0 < 2 ∧ detectorSpaced (2 / 2) [0, 2, 4]) ∧
    (1 : ℚ) / 2 ≤ (breathIntervals [0, 2, 4] 2).headD 1 :=
  ⟨⟨by norm_num, by unfold detectorSpaced; norm_num [List.chain'_cons]⟩,
   C5_breathing_event_spacing [0, 2, 4] 2 (by norm_num)
     (by unfold detectorSpaced; norm_num [List.chain'_cons])
     ((breathIntervals [0, 2, 4] 2).headD 1)
     (by norm_num [breathIntervals, npDiff])⟩

/-- Counterexample to C4: breathing regularity is not bounded below by
0. The event list satisfies the detector's spacing contract for
`sr = 2`, its inter-event intervals are `[1, 1, 1, 1, 11]` seconds
(mean 3, standard deviation 4), and the returned regularity is
`1 - 4/3 < 0`. -/
theorem C4_regularity_negative_counterexample :
    detectorSpaced (2 / 2) [0, 2, 4, 6, 8, 30] ∧
    (analyzeBreathing [0, 2, 4, 6, 8, 30] 60 2).regularity < 0 := by
  constructor
  · unfold detectorSpaced; norm_num [List.chain'_cons]
  · have hint : breathIntervals [0, 2, 4, 6, 8, 30] 2 = [1, 1, 1, 1, 11] := by
      norm_num [breathIntervals, npDiff]
    have hmean : npMean [1, 1, 1, 1, 11] = 3 := by norm_num [npMean]
    have hvar : npVar [1, 1, 1, 1, 11] = 16 := by norm_num [npVar, npMean]
    have hstd : npStdR [1, 1, 1, 1, 11] = 4 := by
      unfold npStdR
      rw [hvar, show ((16 : ℚ) : ℝ) = (4 : ℝ) ^ 2 by norm_num,
        Real.sqrt_sq (by norm_num)]
    simp only [analyzeBreathing, hint, hmean, hstd]
    norm_num

/-- C4 (amended): breathing regularity is 0 when fewer than two events
exist, equals `1 - std(intervals)/mean(intervals)` when at least two
events exist and the mean interval is positive, and is bounded above by
1 — but it is not bounded below by 0. -/
theorem C4_regularity_amended (breath_events : List ℕ) (audioLen sr : ℕ) :
    (analyzeBreathing breath_events audioLen sr).regularity ≤ 1 ∧
    (breath_events.length ≤ 1 →
      (analyzeBreathing breath_events audioLen sr).regularity = 0) ∧
    (1 < breath_events.length →
      0 < npMean (breathIntervals breath_events sr) →
      (analyzeBreathing breath_events audioLen sr).regularity =
        1 - npStdR (breathIntervals breath_events sr) /
          ((npMean (breathIntervals breath_events sr) : ℚ) : ℝ)) := by
  refine ⟨?_, ?_, ?_⟩
  · simp only [analyzeBreathing]
    split_ifs with h1 h2
    · have hs : (0 : ℝ) ≤ npStdR (breathIntervals breath_events sr) :=
        Real.sqrt_nonneg _
      have hm : (0 : ℝ) < ((npMean (breathIntervals breath_events sr) : ℚ) : ℝ) := by
        exact_mod_cast h2
      have hd : (0 : ℝ) ≤ npStdR (breathIntervals breath_events sr) /
          ((npMean (breathIntervals breath_events sr) : ℚ) : ℝ) :=
        div_nonneg hs hm.le
      linarith
    · norm_num
    · norm_num
  · intro h
    simp only [analyzeBreathing]
    rw [if_neg (by omega)]
  · intro h1 h2
    simp only [analyzeBreathing]
    rw [if_pos h1, if_pos h2]

/-- Witness for C4 (amended) at concrete event lists. -/
theorem C4_regularity_witness :
    (analyzeBreathing [] 10 2).regularity = 0 ∧
    (analyzeBreathing [0, 2, 4] 10 2).regularity =
      1 - npStdR (breathIntervals [0, 2, 4] 2) /
        ((npMean (breathIntervals [0, 2, 4] 2) : ℚ) : ℝ) :=
  ⟨(C4_regularity_amended [] 10 2).2.1 (by norm_num),
   (C4_regularity_amended [0, 2, 4] 10 2).2.2 (by norm_num)
     (by norm_num [breathIntervals, npDiff, npMean])⟩

/-- Helper: the seed is below a `max` fold. -/
lemma le_foldl_max (xs : List ℚ) (init : ℚ) : init ≤ xs.foldl max init := by
  induction xs generalizing init with
  | nil => simp
  | cons y ys ih => exact le_trans (le_max_left init y) (ih (max init y))

/-- Helper: every element is below a `max` fold over its list. -/
lemma mem_le_foldl_max {x : ℚ} (xs : List ℚ) (init : ℚ) (hx : x ∈ xs) :
    x ≤ xs.foldl max init := by
  induction xs generalizing init with
  | nil => simp at hx
  | cons y ys ih =>
    rcases List.mem_cons.mp hx with rfl | hmem
    · exact le_trans (le_max_right init x) (le_foldl_max ys (max init x))
    · exact ih (max init y) hmem

/-- Helper: every element is below the Python `max` of its list. -/
lemma mem_le_pyListMax {x : ℚ} {xs : List ℚ} (hx : x ∈ xs) :
    x ≤ pyListMax xs := by
  cases xs with
  | nil => simp at hx
  | cons y ys =>
    unfold pyListMax
    rcases List.mem_cons.mp hx with rfl | hmem
    · exact le_foldl_max ys x
    · exact mem_le_foldl_max ys y hmem

/-- Helper: the mean of nonnegative values is nonnegative. -/
lemma npMean_nonneg {xs : List ℚ} (h : ∀ x ∈ xs, 0 ≤ x) : 0 ≤ npMean xs := by
  unfold npMean
  exact div_nonneg (List.sum_nonneg h) (by positivity)

/-- C6: when at least one eligible segment exists, every fatigue
timeline value lies in [0, 1] and the fatigue score is
`1 - last/first` over the timeline (0 when the first value is not
positive); when no eligible segment exists, the timeline is exactly
`[0.0]` and the score is 0. The hypothesis states that the RMS oracle
returns nonnegative magnitudes. -/
theorem C6_fatigue_timeline_bounds (rmsOf : List ℚ → List ℚ)
    (audio : List ℚ) (sr : ℕ)
    (hrms : ∀ s, ∀ x ∈ rmsOf s, (0 : ℚ) ≤ x) :
    (eligibleSegments audio sr ≠ [] →
      (∀ v ∈ (analyzeFatigue rmsOf audio sr).timeline, 0 ≤ v ∧ v ≤ 1) ∧
      (analyzeFatigue rmsOf audio sr).fatigue_score =
        (if 0 < (analyzeFatigue rmsOf audio sr).timeline.headD 0 then
          1 - (analyzeFatigue rmsOf audio sr).timeline.getLastD 0 /
            (analyzeFatigue rmsOf audio sr).timeline.headD 0
         else 0)) ∧
    (eligibleSegments audio sr = [] →
      (analyzeFatigue rmsOf audio sr).timeline = [0] ∧
      (analyzeFatigue rmsOf audio sr).fatigue_score = 0) := by
  by_cases hseg : eligibleSegments audio sr = []
  · refine ⟨fun hne => absurd hseg hne, fun _ => ?_⟩
    unfold analyzeFatigue
    rw [if_pos hseg]
    exact ⟨rfl, rfl⟩
  · refine ⟨fun _ => ?_, fun h => absurd h hseg⟩
    have hetne : energyTrend rmsOf audio sr ≠ [] := by
      intro h0
      exact hseg (List.map_eq_nil_iff.mp h0)
    have htrend : normalizedTrend rmsOf audio sr =
        (energyTrend rmsOf audio sr).map
          (fun e =>
            if 0 < pyListMax (energyTrend rmsOf audio sr) then
              e / pyListMax (energyTrend rmsOf audio sr)
            else 0) := by
      unfold normalizedTrend
      rw [if_neg hetne]
    have hbounds : ∀ v ∈ normalizedTrend rmsOf audio sr, 0 ≤ v ∧ v ≤ 1 := by
      intro v hv
      rw [htrend] at hv
      obtain ⟨e, he, rfl⟩ := List.mem_map.mp hv
      by_cases hM : 0 < pyListMax (energyTrend rmsOf audio sr)
      · rw [if_pos hM]
        have he0 : 0 ≤ e := by
          obtain ⟨s, _, rfl⟩ := List.mem_map.mp he
          exact npMean_nonneg (hrms s)
        have heM : e ≤ pyListMax (energyTrend rmsOf audio sr) :=
          mem_le_pyListMax he
        exact ⟨div_nonneg he0 hM.le, (div_le_one hM).mpr heM⟩
      · rw [if_neg hM]
        norm_num
    have hres : analyzeFatigue rmsOf audio sr =
        { fatigue_score :=
            if normalizedTrend rmsOf audio sr ≠ [] ∧
                0 < (normalizedTrend rmsOf audio sr).headD 0 then
              1 - (normalizedTrend rmsOf audio sr).getLastD 0 /
                (normalizedTrend rmsOf audio sr).headD 0
            else 0
          timeline := normalizedTrend rmsOf audio sr } := by
      unfold analyzeFatigue
      rw [if_neg hseg]
    rw [hres]
    refine ⟨hbounds, ?_⟩
    have htne : normalizedTrend rmsOf audio sr ≠ [] := by
      rw [htrend]
      intro h0
      exact hetne (List.map_eq_nil_iff.mp h0)
    by_cases hh : 0 < (normalizedTrend rmsOf audio sr).headD 0
    · rw [if_pos ⟨htne, hh⟩, if_pos hh]
    · rw [if_neg (fun hc => hh hc.2), if_neg hh]

/-- Witness for C6: a four-sample clip at 1 Hz (two eligible segments)
with a constant RMS oracle, and a too-short clip with no eligible
segment. -/
theorem C6_fatigue_witness :
    (analyzeFatigue (fun _ => [1]) [1, 1, 1, 1] 1).fatigue_score =
      (if 0 < (analyzeFatigue (fun _ => [1]) [1, 1, 1, 1] 1).timeline.headD 0 then
        1 - (analyzeFatigue (fun _ => [1]) [1, 1, 1, 1] 1).timeline.getLastD 0 /
          (analyzeFatigue (fun _ => [1]) [1, 1, 1, 1] 1).timeline.headD 0
       else 0) ∧
    (analyzeFatigue (fun _ => [1]) [] 1).timeline = [0] :=
  ⟨((C6_fatigue_timeline_bounds (fun _ => [1]) [1, 1, 1, 1] 1
      (by intro s x hx; simp at hx; simp [hx])).1
      (by simp [eligibleSegments, chunkSegments])).2,
   ((C6_fatigue_timeline_bounds (fun _ => [1]) [] 1
      (by intro s x hx; simp at hx; simp [hx])).2
      (by simp [eligibleSegments, chunkSegments])).1⟩

end VoiceAnalysis
